import Mathlib

/-!
Verification of the brute-force calculator search engine (src/main.py).

The embedding below translates the source faithfully:

* Python exceptions become `Except`: an operator's `operate` returns
  `Except Unit Int` (any Python exception inside `operate` is the `error`
  case), and `apply` returns `Except OperatorError Int` where
  `OperatorError` mirrors the exception classes of the source
  (`OperationFailedError`, `NoOperationError`, `FloatError`,
  `OutOfBoundsError`).
* Python integers are `Int`.  `divmod(n, 10)` is floor division with a
  non-negative remainder, i.e. `Int.fdiv n 10` and `Int.emod n 10`.
* The decimal-string machinery (`str(n)`, `int(s)`, `str.replace`) is
  embedded over `List Char`.  `int(s)` fails (Python `ValueError`) on an
  empty string, a bare sign, or any non-digit character after the optional
  sign — exactly the situations the source runs into on negative inputs to
  the digit-based operators.
* `Divide.operate` tests exactness with `float(number) / divisor`; the
  float test decides integer divisibility exactly for every value the
  calculator can hold (|n| < 2^52, far above the 999999 display bound), so
  it is embedded as the integer divisibility test `n % d = 0`.
  `float(n) / 0` raises `ZeroDivisionError`, hence the `d = 0` error case.
* `math.fabs(result) > 999999` is embedded as `999999 < result.natAbs`;
  the float conversion is exact for deciding this threshold at every
  magnitude an operator here can produce.
-/

/-- Python decimal digits of a natural number, most significant first
(`str(n)` for `n ≥ 0`).  Fuel-based so the kernel can evaluate it;
`n + 1` units of fuel always suffice since the argument strictly
decreases. -/
def natDigitsGo : Nat → Nat → List Nat → List Nat
  | 0, _, acc => acc
  | fuel + 1, n, acc =>
    if n < 10 then n :: acc else natDigitsGo fuel (n / 10) ((n % 10) :: acc)

def natDigits (n : Nat) : List Nat := natDigitsGo (n + 1) n []

def digitChar (d : Nat) : Char := Char.ofNat (48 + d)

def natChars (n : Nat) : List Char := (natDigits n).map digitChar

/-- Python `str(n)` for an integer: a leading minus sign for negative
values, then the decimal digits of the magnitude. -/
def pystr (n : Int) : List Char :=
  if n < 0 then '-' :: natChars n.natAbs else natChars n.toNat

/-- One parsing step of Python `int`: accumulate decimal digits, reject any
other character. -/
def parseDigitsGo (acc : Nat) : List Char → Option Nat
  | [] => some acc
  | c :: rest =>
    if '0' ≤ c ∧ c ≤ '9' then parseDigitsGo (acc * 10 + (c.toNat - 48)) rest
    else none

/-- Python `int(s)`: an optional sign followed by at least one decimal
digit; anything else raises `ValueError`, embedded as `error`. -/
def pyint (s : List Char) : Except Unit Int :=
  match s with
  | [] => .error ()
  | '-' :: rest =>
    match rest, parseDigitsGo 0 rest with
    | _ :: _, some v => .ok (-(v : Int))
    | _, _ => .error ()
  | '+' :: rest =>
    match rest, parseDigitsGo 0 rest with
    | _ :: _, some v => .ok (v : Int)
    | _, _ => .error ()
  | c :: rest =>
    match parseDigitsGo 0 (c :: rest) with
    | some v => .ok (v : Int)
    | none => .error ()

/-- Python `str.replace(pat, rep)` on a non-empty pattern: replace all
non-overlapping occurrences, scanning left to right.  Fuel equals the
length of the string; every step consumes at least one character and one
unit of fuel. -/
def replaceGo (pat rep : List Char) : Nat → List Char → List Char
  | _, [] => []
  | 0, s => s
  | fuel + 1, c :: rest =>
    if List.isPrefixOf pat (c :: rest) then
      rep ++ replaceGo pat rep fuel (List.drop (pat.length - 1) rest)
    else c :: replaceGo pat rep fuel rest

/-- Python `s.replace(pat, rep)`.  The empty-pattern case never arises in
the source (`str` of an integer is never empty). -/
def replaceAll (pat rep s : List Char) : List Char :=
  if pat = [] then s else replaceGo pat rep s.length s

/-- The running sum of `DigitSum.operate`: `cumsum += int(str_digit)` over
the characters of `str(number)`; `int` of a non-digit character (such as
the minus sign) raises, aborting the whole `operate`. -/
def digitSumGo (acc : Int) : List Char → Except Unit Int
  | [] => .ok acc
  | c :: rest =>
    match pyint [c] with
    | .ok d => digitSumGo (acc + d) rest
    | .error _ => .error ()

/-- The closed set of operator variants of src/main.py, each carrying its
construction parameters. -/
inductive Operator
  | Multiply (factor : Int)
  | Add (adder : Int)
  | Divide (divisor : Int)
  | DigitReplace (inp out : Int)
  | DigitSum
  | DigitAppend (digit : Int)
  | MirrorAppend
  | Backspace
  | ShiftLeft
  | ShiftRight
  deriving DecidableEq

/-- The four exception classes raised around `OperatorBase.apply`
(`FloatError` is declared in the source and caught by the pipeline but
never raised). -/
inductive OperatorError
  | operationFailed
  | noOperation
  | floatError
  | outOfBounds
  deriving DecidableEq

/-- Each variant's `operate` method.  `error` is any Python exception
escaping `operate` (caught by `apply` below). -/
def Operator.operate : Operator → Int → Except Unit Int
  | .Multiply f, n => .ok (n * f)
  | .Add a, n => .ok (n + a)
  | .Divide d, n =>
    if d = 0 then .error ()
    else if n % d = 0 then .ok (n / d) else .ok n
  | .DigitReplace i o, n => pyint (replaceAll (pystr i) (pystr o) (pystr n))
  | .DigitSum, n => digitSumGo 0 (pystr n)
  | .DigitAppend d, n => pyint (pystr n ++ pystr d)
  | .MirrorAppend, n => pyint (pystr n ++ (pystr n).reverse)
  | .ShiftLeft, n =>
    match pystr n with
    | [] => .error ()
    | c :: rest => pyint (rest ++ [c])
  | .ShiftRight, n => pyint (pystr (Int.emod n 10) ++ pystr (Int.fdiv n 10))
  | .Backspace, n => .ok (Int.fdiv n 10)

/-- `OperatorBase.apply`: run `operate`, turning any internal exception
into `OperationFailedError`; then reject an unchanged result as
`NoOperationError` and a result of magnitude above 999999 as
`OutOfBoundsError`. -/
def Operator.apply (op : Operator) (n : Int) : Except OperatorError Int :=
  match op.operate n with
  | .error _ => .error .operationFailed
  | .ok result =>
    if result = n then .error .noOperation
    else if 999999 < result.natAbs then .error .outOfBounds
    else .ok result

/-- The `__repr__` strings of the operator classes, exactly as written in
the source (`ShiftRight.__repr__` returns the string "ShiftLeft"). -/
def Operator.reprStr : Operator → String
  | .Multiply f => "Multiply(" ++ toString f ++ ")"
  | .Add a => "Add(" ++ toString a ++ ")"
  | .Divide d => "Divide(" ++ toString d ++ ")"
  | .DigitReplace i o => "Replace(" ++ toString i ++ "=>" ++ toString o ++ ")"
  | .DigitSum => "Sum"
  | .DigitAppend d => "Append(" ++ toString d ++ ")"
  | .MirrorAppend => "Mirror"
  | .Backspace => "Backspace"
  | .ShiftLeft => "ShiftLeft"
  | .ShiftRight => "ShiftLeft"

namespace OperationPipeline

/-- The loop body of `OperationPipeline._safe_compute`: fold `apply` over
the sequence from `current`, returning `start` on `FloatError`,
`NoOperationError` or `OutOfBoundsError`; `OperationFailedError` is not
caught and propagates (the `error` case). -/
def safeComputeGo (start : Int) (current : Int) : List Operator → Except Unit Int
  | [] => .ok current
  | op :: rest =>
    match op.apply current with
    | .ok v => safeComputeGo start v rest
    | .error .noOperation => .ok start
    | .error .floatError => .ok start
    | .error .outOfBounds => .ok start
    | .error .operationFailed => .error ()

/-- `OperationPipeline._safe_compute`. -/
def safe_compute (start : Int) (seq : List Operator) : Except Unit Int :=
  safeComputeGo start start seq

/-- `OperationPipeline.compute`: true iff `_safe_compute` produced exactly
the target. -/
def compute (start target : Int) (seq : List Operator) : Except Unit Bool :=
  match safe_compute start seq with
  | .ok result => .ok (if result = target then true else false)
  | .error e => .error e

end OperationPipeline

namespace BruteForceCalculator

/-- `BruteForceCalculator.operation_sequence_candidates`:
`itertools.product(operations, repeat=max_moves)` — all `max_moves`-tuples
over the operator pool, leftmost position varying slowest. -/
def operation_sequence_candidates (ops : List Operator) : Nat → List (List Operator)
  | 0 => [[]]
  | k + 1 =>
    ops.flatMap fun o => (operation_sequence_candidates ops k).map fun s => o :: s

/-- The loop body of `BruteForceCalculator.run`: evaluate each candidate
in order, collecting the winners; an uncaught pipeline error aborts the
whole run. -/
def runGo (start target : Int) : List (List Operator) → Except Unit (List (List Operator))
  | [] => .ok []
  | s :: rest =>
    match OperationPipeline.compute start target s with
    | .error e => .error e
    | .ok true => (runGo start target rest).map fun ws => s :: ws
    | .ok false => runGo start target rest

/-- `BruteForceCalculator.run`, returning the reported winning sequences
in the order they are printed. -/
def run (start target : Int) (max_moves : Nat) (ops : List Operator) :
    Except Unit (List (List Operator)) :=
  runGo start target (operation_sequence_candidates ops max_moves)

end BruteForceCalculator

/-- All-success fold of `apply`: `some v` iff every step of the sequence
succeeds, producing `v`. -/
def applyAll (current : Int) : List Operator → Option Int
  | [] => some current
  | op :: rest =>
    match op.apply current with
    | .ok v => applyAll v rest
    | .error _ => none

/-- The three possible fates of a pipeline fold, before the fallback to
`start` is applied. -/
inductive Outcome
  | success (v : Int)
  | softAbort
  | hardFail
  deriving DecidableEq

/-- Classify a fold of `apply` over a sequence: full success with the
final value, a first failure that is soft (`NoOperationError` /
`OutOfBoundsError` / `FloatError`), or a first failure that is
`OperationFailedError`. -/
def foldOutcome (current : Int) : List Operator → Outcome
  | [] => .success current
  | op :: rest =>
    match op.apply current with
    | .ok v => foldOutcome v rest
    | .error .noOperation => .softAbort
    | .error .floatError => .softAbort
    | .error .outOfBounds => .softAbort
    | .error .operationFailed => .hardFail

/-- The digits of `i` in base `m`, padded to `k` positions, most
significant first: the odometer reading after `i` ticks, which is the
spec's description of the enumeration order. -/
def baseDigits (m : Nat) : Nat → Nat → List Nat
  | 0, _ => []
  | k + 1, i => i / m ^ k :: baseDigits m k (i % m ^ k)

/-! ### Helper lemmas about the pipeline fold -/

theorem safeComputeGo_append (start : Int) (rest : List Operator) :
    ∀ (pre : List Operator) (cur v : Int), applyAll cur pre = some v →
      OperationPipeline.safeComputeGo start cur (pre ++ rest) =
        OperationPipeline.safeComputeGo start v rest := by
  intro pre
  induction pre with
  | nil =>
    intro cur v h
    simp [applyAll] at h
    simp [h]
  | cons op pre ih =>
    intro cur v h
    simp only [applyAll] at h
    cases hap : op.apply cur with
    | ok w =>
      rw [hap] at h
      simpa [OperationPipeline.safeComputeGo, hap] using ih w v h
    | error e =>
      rw [hap] at h
      exact absurd h (by simp)

theorem safeComputeGo_eq_outcome (start : Int) :
    ∀ (seq : List Operator) (cur : Int),
      OperationPipeline.safeComputeGo start cur seq =
        match foldOutcome cur seq with
        | .success v => .ok v
        | .softAbort => .ok start
        | .hardFail => .error () := by
  intro seq
  induction seq with
  | nil => intro cur; simp [OperationPipeline.safeComputeGo, foldOutcome]
  | cons op rest ih =>
    intro cur
    simp only [OperationPipeline.safeComputeGo, foldOutcome]
    cases hap : op.apply cur with
    | ok v => exact ih v
    | error e => cases e <;> simp

theorem applyAll_cons (op : Operator) (rest : List Operator) (cur v : Int)
    (h : op.apply cur = .ok v) :
    applyAll cur (op :: rest) = applyAll v rest := by
  simp [applyAll, h]

/-! ### Helper lemmas about the candidate enumerator -/

theorem candidates_length (ops : List Operator) (k : Nat) :
    (BruteForceCalculator.operation_sequence_candidates ops k).length = ops.length ^ k := by
  induction k with
  | zero => simp [BruteForceCalculator.operation_sequence_candidates]
  | succ k ih =>
    simp [BruteForceCalculator.operation_sequence_candidates, List.length_flatMap,
      Function.comp_def, ih, pow_succ, Nat.mul_comm]

theorem candidates_mem_length (ops : List Operator) (k : Nat) :
    ∀ s ∈ BruteForceCalculator.operation_sequence_candidates ops k, s.length = k := by
  induction k with
  | zero =>
    intro s hs
    simp [BruteForceCalculator.operation_sequence_candidates] at hs
    simp [hs]
  | succ k ih =>
    intro s hs
    simp only [BruteForceCalculator.operation_sequence_candidates, List.mem_flatMap,
      List.mem_map] at hs
    obtain ⟨o, _, t, ht, rfl⟩ := hs
    simp [ih t ht]

theorem flatMap_uniform_get {α β : Type} (d : α) (f : α → List β) (B : Nat) :
    ∀ (l : List α), (∀ x ∈ l, (f x).length = B) → ∀ i, i < l.length * B →
      (l.flatMap f).get? i = (f (l.getD (i / B) d)).get? (i % B) := by
  intro l
  induction l with
  | nil => intro _ i hi; simp at hi
  | cons a t ih =>
    intro hlen i hi
    have hB : 0 < B := by
      rcases Nat.eq_zero_or_pos B with h0 | h0
      · rw [h0, Nat.mul_zero] at hi; exact absurd hi (Nat.not_lt_zero i)
      · exact h0
    have hfa : (f a).length = B := hlen a (List.mem_cons_self a t)
    by_cases hiB : i < B
    · rw [List.flatMap_cons, List.get?_append (by rw [hfa]; exact hiB)]
      rw [Nat.div_eq_of_lt hiB, Nat.mod_eq_of_lt hiB]
      rfl
    · push_neg at hiB
      rw [List.flatMap_cons, List.get?_append_right (by rw [hfa]; exact hiB)]
      have ht : ∀ x ∈ t, (f x).length = B := fun x hx => hlen x (List.mem_cons_of_mem a hx)
      have hi2 : i - B < t.length * B := by
        simp only [List.length_cons] at hi
        have : (t.length + 1) * B = t.length * B + B := by ring
        omega
      have hdiv : (i - B) / B = i / B - 1 := by
        rw [Nat.div_eq_sub_div hB hiB]
        simp
      have hmod : (i - B) % B = i % B := (Nat.mod_eq_sub_mod hiB).symm
      have hgetD : t.getD ((i - B) / B) d = (a :: t).getD (i / B) d := by
        rw [hdiv]
        have h1 : 1 ≤ i / B := (Nat.one_le_div_iff hB).mpr hiB
        rcases Nat.exists_eq_add_of_le h1 with ⟨j, hj⟩
        rw [hj]
        simp [Nat.add_comm 1 j]
      rw [hfa, ih ht (i - B) hi2, hdiv, hmod, ← hdiv, hgetD]

theorem candidates_get (ops : List Operator) (k : Nat) :
    ∀ i, i < ops.length ^ k →
      (BruteForceCalculator.operation_sequence_candidates ops k).get? i =
        some ((baseDigits ops.length k i).map fun j => ops.getD j Operator.DigitSum) := by
  induction k with
  | zero =>
    intro i hi
    have : i = 0 := by simpa using hi
    simp [this, BruteForceCalculator.operation_sequence_candidates, baseDigits]
  | succ k ih =>
    intro i hi
    have hm : 0 < ops.length := by
      rcases Nat.eq_zero_or_pos ops.length with h0 | h0
      · rw [h0] at hi; simp [Nat.zero_pow] at hi
      · exact h0
    have hmk : 0 < ops.length ^ k := Nat.pos_pow_of_pos k hm
    have hi2 : i < ops.length * ops.length ^ k := by
      rw [pow_succ, Nat.mul_comm] at hi; exact hi
    have hblocks : ∀ o ∈ ops,
        ((BruteForceCalculator.operation_sequence_candidates ops k).map
          (fun s => o :: s)).length = ops.length ^ k := by
      intro o _
      simp [candidates_length]
    rw [BruteForceCalculator.operation_sequence_candidates]
    rw [flatMap_uniform_get Operator.DigitSum _ (ops.length ^ k) ops hblocks i hi2]
    rw [List.get?_map, ih (i % ops.length ^ k) (Nat.mod_lt i hmk)]
    simp [baseDigits]

theorem runGo_error_of_mem (start target : Int) :
    ∀ (cands : List (List Operator)) (seq : List Operator), seq ∈ cands →
      OperationPipeline.compute start target seq = .error () →
      BruteForceCalculator.runGo start target cands = .error () := by
  intro cands
  induction cands with
  | nil => intro seq h; simp at h
  | cons c rest ih =>
    intro seq hmem herr
    rcases List.mem_cons.mp hmem with rfl | hmem2
    · simp [BruteForceCalculator.runGo, herr]
    · cases hc : OperationPipeline.compute start target c with
      | error e => cases e; simp [BruteForceCalculator.runGo, hc]
      | ok b =>
        have hrest := ih seq hmem2 herr
        cases b <;> simp [BruteForceCalculator.runGo, hc, hrest, Except.map]

/-! ### The claims -/

/-- C1 counterexample: at the boundary scenario start=5, target=5, one
move, operator pool consisting only of Add(0), the search does NOT report
zero winning sequences — it reports exactly one, namely [Add(0)]: the
candidate soft-aborts and `_safe_compute` falls back to `start = 5`,
which equals the target. -/
theorem add_zero_boundary_counterexample :
    BruteForceCalculator.run 5 5 1 [Operator.Add 0] = .ok [[Operator.Add 0]] ∧
    ([[Operator.Add 0]] : List (List Operator)) ≠ [] :=
  ⟨rfl, by decide⟩

/-- C1 (amended): `Add(0).apply(5)` signals `NoOperation`, but the overall
search for start=5, target=5, one move, pool Add(0) reports exactly one
winning sequence (the soft-aborted candidate falls back to start, which
equals the target — a false positive).  In general, `compute` reports a
sequence successful iff either every operator application in it succeeds
(and hence, by the apply envelope, strictly changes the value and stays in
bounds) and the final value equals the target, or some step soft-aborts
and the start value equals the target. -/
theorem compute_success_characterization :
    Operator.apply (.Add 0) 5 = .error .noOperation ∧
    BruteForceCalculator.run 5 5 1 [Operator.Add 0] = .ok [[Operator.Add 0]] ∧
    ∀ (start target : Int) (seq : List Operator),
      OperationPipeline.compute start target seq = .ok true ↔
        (foldOutcome start seq = .success target ∨
          (foldOutcome start seq = .softAbort ∧ start = target)) := by
  refine ⟨rfl, rfl, fun start target seq => ?_⟩
  unfold OperationPipeline.compute OperationPipeline.safe_compute
  rw [safeComputeGo_eq_outcome]
  cases h : foldOutcome start seq with
  | success v => by_cases hv : v = target <;> simp [hv]
  | softAbort => by_cases hst : start = target <;> simp [hst]
  | hardFail => simp

/-- C2 counterexample: Python `divmod` floors toward negative infinity, so
`Backspace.operate(-5)` is -1, not the 0 that truncation toward zero (and
the claim, for n strictly between -10 and 10) would give. -/
theorem backspace_negative_counterexample :
    Operator.operate .Backspace (-5) = .ok (-1) ∧ ((-1 : Int) = 0 → False) :=
  ⟨rfl, by decide⟩

/-- C2 (amended): `Backspace.operate` drops the last decimal digit by
FLOOR division by 10 (toward negative infinity, the semantics of Python
`divmod`), not truncation toward zero: the result is 0 exactly for n in
[0, 10), while for n in (-10, 0) the result is -1. -/
theorem backspace_floor_division :
    (∀ n : Int, Operator.operate .Backspace n = .ok (Int.fdiv n 10)) ∧
    (∀ n : Int, 0 ≤ n → n < 10 → Operator.operate .Backspace n = .ok 0) ∧
    (∀ n : Int, -10 < n → n < 0 → Operator.operate .Backspace n = .ok (-1)) := by
  refine ⟨fun n => rfl, fun n h1 h2 => ?_, fun n h1 h2 => ?_⟩
  · have hz : Int.fdiv n 10 = 0 := by
      rw [Int.fdiv_eq_ediv n (by norm_num)]
      omega
    show Except.ok (Int.fdiv n 10) = Except.ok 0
    rw [hz]
  · have ho : Int.fdiv n 10 = -1 := by
      rw [Int.fdiv_eq_ediv n (by norm_num)]
      omega
    show Except.ok (Int.fdiv n 10) = Except.ok (-1)
    rw [ho]

/-- C2 witness: the amended interval facts at n = 7 and n = -7. -/
theorem backspace_floor_division_witness :
    (0 : Int) ≤ 7 ∧ (7 : Int) < 10 ∧ Operator.operate .Backspace 7 = .ok 0 ∧
    (-10 : Int) < -7 ∧ (-7 : Int) < 0 ∧ Operator.operate .Backspace (-7) = .ok (-1) :=
  ⟨by decide, by decide, backspace_floor_division.2.1 7 (by decide) (by decide),
   by decide, by decide, backspace_floor_division.2.2 (-7) (by decide) (by decide)⟩

/-- C3: for a nonzero divisor that does not divide the input exactly,
`Divide(d).operate(n)` does not fail and returns the input unchanged;
consequently `Divide(d).apply(n)` signals `NoOperation`, and any pipeline
run whose prefix reaches value n and then applies Divide(d) soft-aborts to
the start value, never reporting a result computed through that step. -/
theorem divide_inexact_noop (n d : Int) (hd : d ≠ 0) (hnd : ¬ d ∣ n) :
    Operator.operate (.Divide d) n = .ok n ∧
    Operator.apply (.Divide d) n = .error .noOperation ∧
    ∀ (start : Int) (pre post : List Operator), applyAll start pre = some n →
      OperationPipeline.safe_compute start (pre ++ .Divide d :: post) = .ok start := by
  have hmod : ¬ (n % d = 0) := fun h => hnd (Int.dvd_iff_emod_eq_zero.mpr h)
  have hop : Operator.operate (.Divide d) n = .ok n := by
    simp [Operator.operate, hd, hmod]
  have hap : Operator.apply (.Divide d) n = .error .noOperation := by
    simp [Operator.apply, hop]
  refine ⟨hop, hap, fun start pre post hpre => ?_⟩
  unfold OperationPipeline.safe_compute
  rw [safeComputeGo_append start (.Divide d :: post) pre start n hpre]
  simp [OperationPipeline.safeComputeGo, hap]

/-- C3 witness: Divide(3) applied to 5. -/
theorem divide_inexact_noop_witness :
    (3 : Int) ≠ 0 ∧ ¬ ((3 : Int) ∣ 5) ∧
    Operator.operate (.Divide 3) 5 = .ok 5 ∧
    Operator.apply (.Divide 3) 5 = .error .noOperation ∧
    OperationPipeline.safe_compute 5 ([] ++ .Divide 3 :: []) = .ok 5 := by
  have h := divide_inexact_noop 5 3 (by decide) (by decide)
  exact ⟨by decide, by decide, h.1, h.2.1, h.2.2 5 [] [] rfl⟩

/-- C4: for every operator variant and every input, `apply` either returns
a value of magnitude at most 999999 that differs from the input, or
signals exactly one of `NoOperation`, `OutOfBounds`, `OperationFailed`
(never `FloatError`, and — by the `Except` return type — never both a
value and a signal). -/
theorem apply_value_or_single_signal (op : Operator) (n : Int) :
    (∃ v, op.apply n = .ok v ∧ v.natAbs ≤ 999999 ∧ v ≠ n) ∨
    op.apply n = .error .noOperation ∨ op.apply n = .error .outOfBounds ∨
    op.apply n = .error .operationFailed := by
  cases h : op.operate n with
  | error e => simp [Operator.apply, h]
  | ok r =>
    by_cases h1 : r = n
    · simp [Operator.apply, h, h1]
    · by_cases h2 : 999999 < r.natAbs
      · simp [Operator.apply, h, h1, h2]
      · exact Or.inl ⟨r, by simp [Operator.apply, h, h1, h2], Nat.le_of_not_lt h2, h1⟩

/-- C5: if the pipeline fold reaches some value v (all earlier steps
succeeded) and the next operator signals `NoOperation` or `OutOfBounds`,
then `_safe_compute` returns the fixed start value — not the partial value
computed so far. -/
theorem soft_abort_yields_start (start : Int) (pre : List Operator) (op : Operator)
    (post : List Operator) (v : Int) (e : OperatorError)
    (h1 : applyAll start pre = some v) (h2 : op.apply v = .error e)
    (h3 : e = .noOperation ∨ e = .outOfBounds) :
    OperationPipeline.safe_compute start (pre ++ op :: post) = .ok start := by
  unfold OperationPipeline.safe_compute
  rw [safeComputeGo_append start (op :: post) pre start v h1]
  rcases h3 with rfl | rfl <;> simp [OperationPipeline.safeComputeGo, h2]

/-- C5 witness: start 5, Add(0) no-ops immediately; the partial value is
discarded and the run yields the start value 5, even though a further
Add(1) step follows. -/
theorem soft_abort_yields_start_witness :
    applyAll 5 [] = some 5 ∧
    Operator.apply (.Add 0) 5 = .error .noOperation ∧
    OperationPipeline.safe_compute 5 ([] ++ .Add 0 :: [Operator.Add 1]) = .ok 5 :=
  ⟨rfl, rfl,
    soft_abort_yields_start 5 [] (.Add 0) [Operator.Add 1] 5 .noOperation rfl rfl
      (Or.inl rfl)⟩

/-- C6: `OperationFailed` is not caught by the pipeline: if the fold
reaches value v and the next operator signals `OperationFailed`, then
`compute` propagates the error, and any search run whose candidate list
contains that sequence aborts entirely with the error. -/
theorem operation_failed_propagates (start target : Int) (pre post : List Operator)
    (op : Operator) (v : Int)
    (h1 : applyAll start pre = some v) (h2 : op.apply v = .error .operationFailed) :
    OperationPipeline.compute start target (pre ++ op :: post) = .error () ∧
    ∀ (k : Nat) (ops : List Operator),
      (pre ++ op :: post) ∈ BruteForceCalculator.operation_sequence_candidates ops k →
      BruteForceCalculator.run start target k ops = .error () := by
  have hsc : OperationPipeline.safe_compute start (pre ++ op :: post) = .error () := by
    unfold OperationPipeline.safe_compute
    rw [safeComputeGo_append start (op :: post) pre start v h1]
    simp [OperationPipeline.safeComputeGo, h2]
  have hcomp : OperationPipeline.compute start target (pre ++ op :: post) = .error () := by
    simp [OperationPipeline.compute, hsc]
  refine ⟨hcomp, fun k ops hmem => ?_⟩
  unfold BruteForceCalculator.run
  exact runGo_error_of_mem start target _ _ hmem hcomp

/-- C6 witness: DigitSum applied to the negative start -7 signals
`OperationFailed`; the single-candidate search run aborts with the
error. -/
theorem operation_failed_propagates_witness :
    Operator.apply .DigitSum (-7) = .error .operationFailed ∧
    OperationPipeline.compute (-7) 0 ([] ++ .DigitSum :: []) = .error () ∧
    BruteForceCalculator.run (-7) 0 1 [Operator.DigitSum] = .error () := by
  have h := operation_failed_propagates (-7) 0 [] [] .DigitSum (-7) rfl rfl
  exact ⟨rfl, h.1, h.2 1 [Operator.DigitSum] (by decide)⟩

/-- C7: for an operator pool of size m and move budget k, the enumerator
produces exactly m^k candidate sequences, each of length exactly k, and
the i-th candidate reads off the base-m digits of i (most significant
first) in the pool's fixed ordering — the standard odometer /
lexicographic order.  (The `getD` default is never consulted: every digit
is below m.) -/
theorem enumerator_exhaustive_lexicographic (ops : List Operator) (k : Nat) :
    (BruteForceCalculator.operation_sequence_candidates ops k).length = ops.length ^ k ∧
    (∀ s ∈ BruteForceCalculator.operation_sequence_candidates ops k, s.length = k) ∧
    ∀ i, i < ops.length ^ k →
      (BruteForceCalculator.operation_sequence_candidates ops k).get? i =
        some ((baseDigits ops.length k i).map fun j => ops.getD j Operator.DigitSum) :=
  ⟨candidates_length ops k, candidates_mem_length ops k, candidates_get ops k⟩

/-- C7 witness: a pool of two operators with budget 2 yields the four
candidates in odometer order; candidate number 2 (digits [1, 0]) is
[DigitSum, Backspace], and it has length 2. -/
theorem enumerator_exhaustive_lexicographic_witness :
    (BruteForceCalculator.operation_sequence_candidates
        [Operator.Backspace, Operator.DigitSum] 2).length = 4 ∧
    ([Operator.DigitSum, Operator.Backspace] : List Operator).length = 2 ∧
    (BruteForceCalculator.operation_sequence_candidates
        [Operator.Backspace, Operator.DigitSum] 2).get? 2 =
      some [Operator.DigitSum, Operator.Backspace] := by
  have h := enumerator_exhaustive_lexicographic [Operator.Backspace, Operator.DigitSum] 2
  exact ⟨h.1, h.2.1 [Operator.DigitSum, Operator.Backspace] (by decide),
    (h.2.2 2 (by decide)).trans (by decide)⟩

/-- C8: the bounds check is strict at the display-width limit: a transform
result (differing from the input) of magnitude exactly 1,000,000 makes
`apply` signal `OutOfBounds`, while magnitude exactly 999,999 is returned
successfully. -/
theorem bounds_check_strict (op : Operator) (n r : Int)
    (h : op.operate n = .ok r) (hne : r ≠ n) :
    (r.natAbs = 1000000 → op.apply n = .error .outOfBounds) ∧
    (r.natAbs = 999999 → op.apply n = .ok r) := by
  constructor
  · intro habs
    simp [Operator.apply, h, hne, habs]
  · intro habs
    simp [Operator.apply, h, hne, habs]

/-- C8 witness: Multiply(1000000) on 1 is rejected as out of bounds;
Add(999998) on 1 returns 999999. -/
theorem bounds_check_strict_witness :
    Operator.apply (.Multiply 1000000) 1 = .error .outOfBounds ∧
    Operator.apply (.Add 999998) 1 = .ok 999999 :=
  ⟨(bounds_check_strict (.Multiply 1000000) 1 1000000 rfl (by decide)).1 rfl,
   (bounds_check_strict (.Add 999998) 1 999999 rfl (by decide)).2 rfl⟩

/-- C9: for every negative input, the decimal string begins with the minus
sign, whose per-character `int` conversion fails inside
`DigitSum.operate`, and `apply` re-signals the failure uniformly as
`OperationFailed`. -/
theorem digit_sum_negative_fails (n : Int) (h : n < 0) :
    Operator.apply .DigitSum n = .error .operationFailed := by
  have hstr : pystr n = '-' :: natChars n.natAbs := by simp [pystr, h]
  have hpy : pyint ['-'] = .error () := rfl
  have hop : Operator.operate .DigitSum n = .error () := by
    show digitSumGo 0 (pystr n) = .error ()
    rw [hstr]
    simp [digitSumGo, hpy]
  simp [Operator.apply, hop]

/-- C9 witness: DigitSum applied to -7. -/
theorem digit_sum_negative_fails_witness :
    Operator.apply .DigitSum (-7) = .error .operationFailed :=
  digit_sum_negative_fails (-7) (by decide)

/-- C10: the `__repr__` of ShiftRight is the string "ShiftLeft", identical
to the `__repr__` of ShiftLeft, even though the two operators are distinct
— a reported winning sequence cannot distinguish the two steps. -/
theorem shift_right_repr_collision :
    Operator.reprStr .ShiftRight = "ShiftLeft" ∧
    Operator.reprStr .ShiftRight = Operator.reprStr .ShiftLeft ∧
    Operator.ShiftRight ≠ Operator.ShiftLeft :=
  ⟨rfl, rfl, by decide⟩
